import Mathlib

/-!
Verification development for the pic-mirror plugin.

Shallow embedding of the security- and correctness-critical code:
`src/utils/network_utils.py` (URL safety / SSRF checks, bounded download),
`src/core/image_handler.py` (base64 / local-path ingestion),
`src/utils/file_utils.py` (magic-byte sniffing, extension choice),
`src/image_processor.py` (mirror transform, GIF frame loop),
`src/core/cleanup_manager.py` (cleanup scheduler shutdown).

Python strings are embedded as Lean `String` / `List Char`; bytes as
`List Nat`; the event loop and filesystem as explicit oracles.  Library
functions the code calls (`ipaddress`, `urllib.parse`, `base64` with
`validate=True`, `pathlib` without symlinks) are embedded following the
CPython 3.11 reference implementation.
-/

namespace PicMirror

/-! ### Python string primitives -/

/-- Python `str.startswith`: prefix test on the character sequence. -/
def pyStartswith (s p : String) : Bool := decide (p.data <+: s.data)

/-- Python `str.endswith`: suffix test on the character sequence. -/
def pyEndswith (s p : String) : Bool := decide (p.data <:+ s.data)

/-- Python `str.lower` (ASCII-relevant part). -/
def pyLower (s : String) : String := ⟨s.data.map Char.toLower⟩

/-- Split a character list on a separator character; like Python
`str.split(sep)`, always returns at least one (possibly empty) part. -/
def splitOnChar (sep : Char) : List Char → List (List Char)
  | [] => [[]]
  | c :: cs =>
    match splitOnChar sep cs with
    | [] => [[]]
    | p :: ps => if c = sep then [] :: p :: ps else (c :: p) :: ps

/-- Value of a decimal digit string (callers check digit-ness first). -/
def digitsToNat (l : List Char) : Nat :=
  l.foldl (fun n c => n * 10 + (c.toNat - 48)) 0

/-- Hex digit test, as CPython `_HEX_DIGITS` (0-9 a-f A-F). -/
def isHexDigitChar (c : Char) : Bool :=
  c.isDigit || ('a' ≤ c && c ≤ 'f') || ('A' ≤ c && c ≤ 'F')

/-- Numeric value of one hex digit. -/
def hexVal (c : Char) : Nat :=
  if c.isDigit then c.toNat - 48
  else if 'a' ≤ c && c ≤ 'f' then c.toNat - 87
  else c.toNat - 55

/-- Value of a hex digit string. -/
def hexToNat (l : List Char) : Nat :=
  l.foldl (fun n c => n * 16 + hexVal c) 0

/-! ### CPython `ipaddress` embedding (3.11 reference semantics) -/

/-- `IPv4Address._parse_octet`: nonempty, ASCII decimal digits only, at most
3 characters, no leading zero, value at most 255. -/
def parseOctet (p : List Char) : Option Nat :=
  if p = [] then none
  else if !(p.all Char.isDigit) then none
  else if p.length > 3 then none
  else if p ≠ ['0'] && p.head? = some '0' then none
  else
    let v := digitsToNat p
    if v > 255 then none else some v

/-- `IPv4Address._ip_int_from_string`: exactly four dot-separated octets. -/
def ipv4FromString (cs : List Char) : Option Nat :=
  if cs = [] then none
  else
    match splitOnChar '.' cs with
    | [a, b, c, d] => do
      let x ← parseOctet a
      let y ← parseOctet b
      let z ← parseOctet c
      let w ← parseOctet d
      pure (((x * 256 + y) * 256 + z) * 256 + w)
    | _ => none

/-- `IPv6Address._parse_hextet`: hex digits only, nonempty, at most 4 chars.
(CPython rejects the empty string via `int("", 16)` raising.) -/
def parseHextet (p : List Char) : Option Nat :=
  if !(p.all isHexDigitChar) then none
  else if p.length > 4 then none
  else if p = [] then none
  else some (hexToNat p)

/-- Index of the first empty part strictly inside the list (positions
`1 .. length-2`), mirroring the `skip_index` scan; `none` if absent,
and failure (signalled apart) if there are two. -/
def findSkipIndex (parts : List (List Char)) : Option (Option Nat) :=
  let n := parts.length
  let interiorEmpties :=
    (List.range n).filter fun i => 0 < i && i + 1 < n && parts.getD i [' '] = []
  match interiorEmpties with
  | [] => some none
  | [i] => some (some i)
  | _ => none

/-- Combine hextet values (big endian) into the 128-bit address value. -/
def hextetsToNat (l : List Nat) : Nat :=
  l.foldl (fun n h => n * 65536 + h) 0

/-- `IPv6Address._ip_int_from_string`, translated from CPython: split on
`:`, convert a dotted IPv4 tail into two hextets, locate at most one `::`
run, check the endpoint rules, and assemble the 128-bit integer. -/
def ipv6FromString (cs : List Char) : Option Nat :=
  if cs = [] then none
  else
    let parts := splitOnChar ':' cs
    if parts.length < 3 then none
    else
      let parts : Option (List (List Char)) :=
        match parts.getLast? with
        | some last =>
          if '.' ∈ last then
            match ipv4FromString last with
            | none => none
            | some v4 =>
              some (parts.dropLast ++
               [Nat.toDigits 16 (v4 / 65536 % 65536), Nat.toDigits 16 (v4 % 65536)])
          else some parts
        | none => none
      match parts with
      | none => none
      | some parts =>
        if parts.length > 9 then none
        else
          match findSkipIndex parts with
          | none => none
          | some (some skipIndex) =>
            let partsHi := skipIndex
            let partsLo := parts.length - skipIndex - 1
            let headEmpty := parts.headD [' '] = []
            let lastEmpty := parts.getLastD [' '] = []
            if headEmpty && partsHi ≠ 1 then none
            else if lastEmpty && partsLo ≠ 1 then none
            else
              let partsHi := if headEmpty then partsHi - 1 else partsHi
              let partsLo := if lastEmpty then partsLo - 1 else partsLo
              if 8 - (partsHi + partsLo) < 1 then none
              else
                match (parts.take partsHi).mapM parseHextet,
                      (parts.drop (parts.length - partsLo)).mapM parseHextet with
                | some hi, some lo =>
                  some ((hextetsToNat hi) * 65536 ^ (8 - partsHi) +
                        hextetsToNat lo)
                | _, _ => none
          | some none =>
            if parts.length ≠ 8 then none
            else if parts.headD [' '] = [] then none
            else if parts.getLastD [' '] = [] then none
            else
              match parts.mapM parseHextet with
              | some hs => some (hextetsToNat hs)
              | none => none

/-- `IPv6Address._split_scope_id` followed by address parsing: an optional
`%scope` suffix is allowed; the scope id must be nonempty and must not
contain another `%`. -/
def ipv6WithScope (cs : List Char) : Option Nat :=
  match cs.findIdx? (· = '%') with
  | none => ipv6FromString cs
  | some i =>
    let addr := cs.take i
    let scope := cs.drop (i + 1)
    if scope = [] || '%' ∈ scope then none
    else ipv6FromString addr

/-- A parsed IP address as produced by `ipaddress.ip_address` on a string. -/
inductive PyIpAddr where
  | v4 (n : Nat)
  | v6 (n : Nat)
deriving DecidableEq, Repr

/-- `ipaddress.ip_address(str)`: try IPv4, then IPv6 (with scope id). -/
def ipAddressOfString (s : String) : Option PyIpAddr :=
  match ipv4FromString s.data with
  | some n => some (.v4 n)
  | none =>
    match ipv6WithScope s.data with
    | some n => some (.v6 n)
    | none => none

/-- Membership of a 32-bit value in a `base/plen` IPv4 network. -/
def inNet4 (n base plen : Nat) : Bool :=
  n / 2 ^ (32 - plen) = base / 2 ^ (32 - plen)

/-- Membership of a 128-bit value in a `base/plen` IPv6 network. -/
def inNet6 (n base plen : Nat) : Bool :=
  n / 2 ^ (128 - plen) = base / 2 ^ (128 - plen)

/-- CPython `_IPv4Constants._private_networks` membership. -/
def ipv4IsPrivate (n : Nat) : Bool :=
  inNet4 n 0x00000000 8 || inNet4 n 0x0A000000 8 || inNet4 n 0x7F000000 8 ||
  inNet4 n 0xA9FE0000 16 || inNet4 n 0xAC100000 12 || inNet4 n 0xC0000000 29 ||
  inNet4 n 0xC00000AA 31 || inNet4 n 0xC0000200 24 || inNet4 n 0xC0A80000 16 ||
  inNet4 n 0xC6120000 15 || inNet4 n 0xC6336400 24 || inNet4 n 0xCB007100 24 ||
  inNet4 n 0xF0000000 4 || inNet4 n 0xFFFFFFFF 32

/-- `IPv4Address.is_loopback`: 127.0.0.0/8. -/
def ipv4IsLoopback (n : Nat) : Bool := inNet4 n 0x7F000000 8

/-- `IPv4Address.is_link_local`: 169.254.0.0/16. -/
def ipv4IsLinkLocal (n : Nat) : Bool := inNet4 n 0xA9FE0000 16

/-- CPython `_IPv6Constants._private_networks` membership. -/
def ipv6IsPrivate (n : Nat) : Bool :=
  inNet6 n 1 128 || inNet6 n 0 128 || inNet6 n 0xFFFF00000000 96 ||
  inNet6 n (0x0100 * 65536 ^ 7) 64 || inNet6 n (0x2001 * 65536 ^ 7) 23 ||
  inNet6 n (0x2001 * 65536 ^ 7 + 0x2 * 65536 ^ 6) 48 ||
  inNet6 n (0x2001 * 65536 ^ 7 + 0xdb8 * 65536 ^ 6) 32 ||
  inNet6 n (0x2001 * 65536 ^ 7 + 0x10 * 65536 ^ 6) 28 ||
  inNet6 n (0xfc00 * 65536 ^ 7) 7 || inNet6 n (0xfe80 * 65536 ^ 7) 10

/-- `IPv6Address.is_loopback`: exactly `::1`. -/
def ipv6IsLoopback (n : Nat) : Bool := n = 1

/-- `IPv6Address.is_link_local`: fe80::/10. -/
def ipv6IsLinkLocal (n : Nat) : Bool := inNet6 n (0xfe80 * 65536 ^ 7) 10

/-! ### Python `int(str)` embedding -/

/-- Characters Python `int` strips around a numeric literal. -/
def isPyWhitespace (c : Char) : Bool :=
  c = ' ' || c = '\t' || c = '\n' || c = '\x0b' || c = '\x0c' || c = '\r'

/-- No two adjacent underscores. -/
def noDoubleUnderscore : List Char → Bool
  | a :: b :: rest => !(a = '_' && b = '_') && noDoubleUnderscore (b :: rest)
  | _ => true

/-- Digit run with optional single underscores strictly between digits. -/
def validDigitRun (l : List Char) : Bool :=
  l ≠ [] && l.all (fun c => c.isDigit || c = '_') &&
  l.headD '_' ≠ '_' && l.getLastD '_' ≠ '_' && noDoubleUnderscore l

/-- Python `int(str)` (base 10): strip whitespace, optional sign, digits
with underscore separators; `none` models `ValueError`. -/
def pyIntParse (s : String) : Option Int :=
  let cs := (s.data.dropWhile isPyWhitespace).reverse.dropWhile isPyWhitespace
    |>.reverse
  match cs with
  | [] => none
  | c :: rest =>
    let signDigits : (Int × List Char) :=
      if c = '+' then (1, rest) else if c = '-' then (-1, rest) else (1, cs)
    if validDigitRun signDigits.2 then
      some (signDigits.1 * Int.ofNat (digitsToNat (signDigits.2.filter (· ≠ '_'))))
    else none

/-! ### `NetworkUtils` (src/utils/network_utils.py) -/

/-- `NetworkUtils._is_private_ip`: parse the string with
`ipaddress.ip_address` and test `is_private or is_loopback or
is_link_local`; a parse failure (`ValueError`) yields `False`. -/
def is_private_ip (ip_str : String) : Bool :=
  match ipAddressOfString ip_str with
  | some (.v4 n) => ipv4IsPrivate n || ipv4IsLoopback n || ipv4IsLinkLocal n
  | some (.v6 n) => ipv6IsPrivate n || ipv6IsLoopback n || ipv6IsLinkLocal n
  | none => false

/-- `NetworkUtils._is_ip_format`: direct `ip_address` parse, else an
integer in the 32-bit range (`ip_address(int)` always succeeds there). -/
def is_ip_format (hostname : String) : Bool :=
  if (ipAddressOfString hostname).isSome then true
  else
    match pyIntParse hostname with
    | some i => 0 ≤ i && i ≤ 0xFFFFFFFF
    | none => false

/-- `NetworkUtils.DANGEROUS_PATTERNS`. -/
def DANGEROUS_PATTERNS : List String :=
  ["localhost", "127.0.0.1", "0.0.0.0", "::1", "169.254.", "metadata.",
   ".internal", ".local", ".localdomain"]

/-- `pattern[1:] if pattern.startswith(".") else pattern`. -/
def cleanPattern (p : String) : String :=
  if pyStartswith p "." then ⟨p.data.drop 1⟩ else p

/-- The blacklist loop of `_is_safe_url_with_ip` (lines 252-260):
exact match, dot-suffix match, or prefix match against any pattern. -/
def matchesDangerousPattern (hostname : String) : Bool :=
  DANGEROUS_PATTERNS.any fun pattern =>
    hostname == pattern ||
    pyEndswith hostname ("." ++ cleanPattern pattern) ||
    pyStartswith hostname pattern

/-- The body of `_is_safe_url_with_ip` after hostname extraction; `dns`
models the asynchronous `_resolve_hostname` (returning `none` on any
resolution failure). -/
def checkHostname (dns : String → Option String) (hostname : String) :
    Option (String × String) :=
  if is_ip_format hostname then
    if is_private_ip hostname then none
    else some (hostname, hostname)
  else if pyStartswith hostname "[" && pyEndswith hostname "]" &&
          is_ip_format ⟨(hostname.data.drop 1).dropLast⟩ then
    if is_private_ip ⟨(hostname.data.drop 1).dropLast⟩ then none
    else some (⟨(hostname.data.drop 1).dropLast⟩, hostname)
  else if matchesDangerousPattern hostname then none
  else
    match dns hostname with
    | none => none
    | some resolved_ip =>
      if is_private_ip resolved_ip then none
      else some (resolved_ip, hostname)

/-! ### `urllib.parse.urlparse` embedding (scheme and hostname only) -/

/-- Valid scheme characters after the first (letters, digits, `+-.`). -/
def isSchemeChar (c : Char) : Bool :=
  c.isAlpha || c.isDigit || c = '+' || c = '-' || c = '.'

/-- CPython `urlsplit` scheme detection: text before the first `:` when it
starts with a letter and uses scheme characters only; lowercased. -/
def urlSplitScheme (url : String) : String × String :=
  match url.data.findIdx? (· = ':') with
  | none => ("", url)
  | some i =>
    let pre := url.data.take i
    let post := url.data.drop (i + 1)
    if decide (0 < i) && (pre.headD ' ').isAlpha && pre.all isSchemeChar then
      (⟨pre.map Char.toLower⟩, ⟨post⟩)
    else ("", url)

/-- `_splitnetloc`: after `//`, the netloc runs up to `/`, `?` or `#`. -/
def urlNetloc (rest : String) : String :=
  if pyStartswith rest "//" then
    ⟨(rest.data.drop 2).takeWhile (fun c => c ≠ '/' && c ≠ '?' && c ≠ '#')⟩
  else ""

/-- `_hostinfo` + the `hostname` property: strip userinfo after the last
`@`, take the bracketed host or the part before the first `:`, lowercase.
Returns `""` where Python returns `None`. -/
def urlHostnameOfNetloc (netloc : String) : String :=
  let hostinfo :=
    match netloc.data.reverse.findIdx? (· = '@') with
    | none => netloc.data
    | some j => netloc.data.drop (netloc.data.length - j)
  let hostname :=
    match hostinfo.findIdx? (· = '[') with
    | some i => (hostinfo.drop (i + 1)).takeWhile (· ≠ ']')
    | none => hostinfo.takeWhile (· ≠ ':')
  ⟨hostname.map Char.toLower⟩

/-- `urlparse(url).scheme`. -/
def urlScheme (url : String) : String := (urlSplitScheme url).1

/-- `urlparse(url).hostname` (as a string, `""` for `None`). -/
def urlHostname (url : String) : String :=
  urlHostnameOfNetloc (urlNetloc (urlSplitScheme url).2)

/-- `NetworkUtils._is_safe_url_with_ip`: scheme and non-empty-hostname
checks, then the hostname logic of `checkHostname`. -/
def is_safe_url_with_ip (dns : String → Option String) (url : String) :
    Option (String × String) :=
  let scheme := urlScheme url
  if scheme ≠ "http" && scheme ≠ "https" then none
  else
    let hostname := urlHostname url
    if hostname = "" then none
    else checkHostname dns hostname

/-! ### `NetworkUtils.download_image` (lines 330-394) -/

/-- The streaming read loop: extend the buffer chunk by chunk and fail as
soon as the buffer exceeds `max_download_size`. -/
def streamRead (max_download_size : Nat) :
    List (List Nat) → List Nat → Option (List Nat)
  | [], buffer => some buffer
  | chunk :: rest, buffer =>
    if (buffer ++ chunk).length > max_download_size then none
    else streamRead max_download_size rest (buffer ++ chunk)

/-- `download_image`, with the HTTP response modelled as a status code and
a list of body chunks (as delivered by `iter_chunked(8192)`): safety check
first, non-200 is failure, then the bounded streaming read. -/
def download_image (dns : String → Option String) (max_download_size : Nat)
    (url : String) (status : Nat) (chunks : List (List Nat)) :
    Option (List Nat) :=
  match is_safe_url_with_ip dns url with
  | none => none
  | some _ =>
    if status ≠ 200 then none
    else streamRead max_download_size chunks []

/-! ### `base64.b64decode(..., validate=True)` embedding

CPython 3.11 maps `validate=True` to `binascii.a2b_base64(strict_mode=1)`:
non-alphabet characters are an error, padding may only appear at the end,
and nothing may follow a completed pad sequence. -/

/-- Value of a base64 alphabet character, `none` outside the alphabet. -/
def b64Val (c : Char) : Option Nat :=
  if 'A' ≤ c && c ≤ 'Z' then some (c.toNat - 65)
  else if 'a' ≤ c && c ≤ 'z' then some (c.toNat - 71)
  else if '0' ≤ c && c ≤ '9' then some (c.toNat + 4)
  else if c = '+' then some 62
  else if c = '/' then some 63
  else none

/-- The strict-mode `a2b_base64` loop.  State: `pos` is the position in
the current quad (0-3), `left` the pending bits, `acc` the output bytes,
`started` whether a pad character has been seen, `pads` the pad count
relevant to ending a 2- or 3-character quad. -/
def a2b64Strict : List Char → Nat → Nat → List Nat → Bool → Nat →
    Option (List Nat)
  | [], pos, _, acc, _, _ => if pos = 0 then some acc else none
  | c :: rest, pos, left, acc, started, pads =>
    if c = '=' then
      if pos ≥ 2 && pos + (pads + 1) ≥ 4 then
        if rest = [] then some acc else none
      else if pos = 0 && acc = [] then none
      else a2b64Strict rest pos left acc true (if pos ≥ 2 then pads + 1 else pads)
    else
      match b64Val c with
      | none => none
      | some v =>
        if started then none
        else
          match pos with
          | 0 => a2b64Strict rest 1 v acc started pads
          | 1 => a2b64Strict rest 2 (v % 16) (acc ++ [left * 4 + v / 16])
                   started pads
          | 2 => a2b64Strict rest 3 (v % 4) (acc ++ [left * 16 + v / 4])
                   started pads
          | _ => a2b64Strict rest 0 0 (acc ++ [left * 64 + v]) started pads

/-- `base64.b64decode(s, validate=True)` on a text payload; `none` models
the `binascii.Error` / non-ASCII `ValueError` cases. -/
def b64decodeStrict (s : String) : Option (List Nat) :=
  a2b64Strict s.data 0 0 [] false 0

/-! ### `FileUtils` (src/utils/file_utils.py) -/

/-- `FileUtils.get_file_extension`: drop the query string
(`split("?")[0]`), then match the regex `\.([a-zA-Z0-9]+)$` and
lowercase the captured group.  The regex matches exactly when the text
after the last dot is a nonempty alphanumeric run. -/
def get_file_extension (url_or_path : String) : Option String :=
  let path := url_or_path.data.takeWhile (· ≠ '?')
  if '.' ∈ path then
    let tail := (splitOnChar '.' path).getLastD []
    if tail ≠ [] && tail.all (fun c => c.isAlpha || c.isDigit) then
      some ⟨'.' :: tail.map Char.toLower⟩
    else none
  else none

/-- `FileUtils.detect_image_format_by_magic` on a byte string. -/
def detect_image_format_by_magic (data : List Nat) : Option String :=
  if data.length < 12 then none
  else if data.take 6 = [0x47, 0x49, 0x46, 0x38, 0x37, 0x61] ||
          data.take 6 = [0x47, 0x49, 0x46, 0x38, 0x39, 0x61] then some ".gif"
  else if data.take 8 = [0x89, 0x50, 0x4E, 0x47, 0x0D, 0x0A, 0x1A, 0x0A] then
    some ".png"
  else if data.take 12 =
      [0x00, 0x00, 0x00, 0x0c, 0x6a, 0x50, 0x20, 0x20, 0x0d, 0x0a, 0x87, 0x0a]
    then some ".jp2"
  else if data.take 3 = [0xff, 0xd8, 0xff] then some ".jpg"
  else if data.take 4 = [0x52, 0x49, 0x46, 0x46] &&
          (data.drop 8).take 4 = [0x57, 0x45, 0x42, 0x50] then some ".webp"
  else if data.take 2 = [0x42, 0x4D] then some ".bmp"
  else if decide (data.length > 12) &&
          (data.drop 4).take 4 = [0x66, 0x74, 0x79, 0x70] &&
          ((data.drop 8).take 4 = [0x61, 0x76, 0x69, 0x66] ||
           (data.drop 8).take 4 = [0x61, 0x76, 0x69, 0x73]) then some ".avif"
  else if data.take 4 = [0x00, 0x00, 0x01, 0x00] ||
          data.take 4 = [0x00, 0x00, 0x02, 0x00] then some ".ico"
  else if data.take 4 = [0x49, 0x49, 0x00, 0x2a] ||
          data.take 4 = [0x4D, 0x4D, 0x00, 0x2a] then some ".tiff"
  else none

/-- The extension choice of `ImageHandler._download_image` (lines
204-208): magic bytes first, then the URL extension, then `.jpg`. -/
def choose_download_ext (image_data : List Nat) (url : String) : String :=
  match detect_image_format_by_magic image_data with
  | some ext => ext
  | none =>
    match get_file_extension url with
    | some ext => ext
    | none => ".jpg"

/-- `FileUtils.decode_base64_image`: strip the `base64://` marker if
present and decode strictly; `none` models the logged exception path. -/
def fileutils_decode_base64_image (base64_data : String) : Option (List Nat) :=
  let stripped :=
    if pyStartswith base64_data "base64://" then
      (⟨base64_data.data.drop 9⟩ : String)
    else base64_data
  b64decodeStrict stripped

/-! ### `PluginConfig` (src/config.py), fields used by the claims -/

/-- The configuration snapshot fields that the embedded code reads. -/
structure PluginConfig where
  image_size_limit_mb : Nat := 10
  gif_size_limit_mb : Nat := 15
  precheck_file_size_mb : Nat := 100
  max_compression_dimension : Nat := 2048
  max_total_pixels : Nat := 4000 * 4000
  max_gif_frames : Nat := 200
  enable_compression : Bool := true
  enable_auto_cleanup : Bool := true
  keep_files_hours : Nat := 1
deriving Repr

/-- `PluginConfig.max_image_size_bytes`. -/
def max_image_size_bytes (c : PluginConfig) : Nat :=
  c.image_size_limit_mb * 1024 * 1024

/-! ### `ImageHandler._decode_base64_image` (src/core/image_handler.py) -/

/-- `MAX_BASE64_LENGTH = 20 * 1024 * 1024 * 4 // 3`. -/
def MAX_BASE64_LENGTH : Nat := 20 * 1024 * 1024 * 4 / 3

/-- The `base64://` marker strip at the top of `_decode_base64_image`. -/
def strippedB64 (base64_data : String) : String :=
  if pyStartswith base64_data "base64://" then ⟨base64_data.data.drop 9⟩
  else base64_data

/-- `self.config.max_image_size_bytes if self.config else 10 * 1024 * 1024`. -/
def b64MaxSize (config : Option PluginConfig) : Nat :=
  match config with
  | some c => max_image_size_bytes c
  | none => 10 * 1024 * 1024

/-- `_decode_base64_image`, generalized over the decoder invoked in the
thread pool so that "the decoder is not invoked" is expressible; the
faithful instance is `decode_base64_image` below.  On success the staged
temp file is modelled by its contents and chosen extension. -/
def decodeBase64ImageWith (dec : String → Option (List Nat))
    (config : Option PluginConfig) (base64_data : String) :
    Option (List Nat × String) :=
  if (strippedB64 base64_data).length > MAX_BASE64_LENGTH then none
  else
    match dec (strippedB64 base64_data) with
    | none => none
    | some image_data =>
      if image_data.length > b64MaxSize config then none
      else
        match detect_image_format_by_magic image_data with
        | some ext => some (image_data, ext)
        | none => some (image_data, ".png")

/-- `ImageHandler._decode_base64_image` with the real strict decoder. -/
def decode_base64_image (config : Option PluginConfig)
    (base64_data : String) : Option (List Nat × String) :=
  decodeBase64ImageWith b64decodeStrict config base64_data

/-! ### `ImageHandler._get_local_file` with a symlink-free `pathlib` -/

/-- `pathlib.PurePath` construction: absoluteness flag plus the parts,
with empty and `.` components dropped (`..` is kept). -/
structure PyPath where
  absolute : Bool
  segments : List String
deriving Repr, DecidableEq

/-- Parse a POSIX path string as `pathlib.Path(...)` does (split on `/`,
drop empty and `.` components). -/
def parsePath (s : String) : PyPath :=
  { absolute := pyStartswith s "/",
    segments := ((splitOnChar '/' s.data).map fun l => (⟨l⟩ : String)).filter
      fun seg => seg ≠ "" && seg ≠ "." }

/-- `Path.resolve()` without symlinks: normalize `..` segments (at the
root, `..` stays at the root). -/
def resolveSegs (l : List String) : List String :=
  l.foldl (fun acc seg =>
    if seg = ".." then acc.dropLast
    else if seg = "." then acc else acc ++ [seg]) []

/-- `ImageHandler._get_local_file`: reject absolute paths, resolve
against the data directory, require `is_relative_to(data_dir)` and
existence.  `data_dir` is the absolute plugin data directory (as its
segment list) and `fsExists` the filesystem oracle over resolved
absolute paths. -/
def get_local_file (data_dir : List String) (fsExists : List String → Bool)
    (file_path : String) : Option (List String) :=
  if (parsePath file_path).absolute then none
  else if resolveSegs data_dir <+:
      resolveSegs (data_dir ++ (parsePath file_path).segments) then
    if fsExists (resolveSegs (data_dir ++ (parsePath file_path).segments)) then
      some (resolveSegs (data_dir ++ (parsePath file_path).segments))
    else none
  else none

/-! ### `MirrorProcessor` (src/image_processor.py)

A decoded raster frame is a width, a height and a pixel function (pixel
values are abstract `Nat`; the `P`/`LA` to `RGBA` conversions do not move
pixels, so they are identities on this view). -/

/-- A decoded image. -/
structure Image where
  width : Nat
  height : Nat
  pix : Nat → Nat → Nat

/-- `Image.new(mode, (w, h))`: PIL fills with zero. -/
def Image.new (w h : Nat) : Image := ⟨w, h, fun _ _ => 0⟩

/-- `img.crop((l, t, r, b))` for an in-bounds box. -/
def Image.crop (img : Image) (l t r b : Nat) : Image :=
  ⟨r - l, b - t, fun x y => img.pix (l + x) (t + y)⟩

/-- `img.transpose(Image.FLIP_LEFT_RIGHT)`. -/
def Image.flipLR (img : Image) : Image :=
  ⟨img.width, img.height, fun x y => img.pix (img.width - 1 - x) y⟩

/-- `img.transpose(Image.FLIP_TOP_BOTTOM)`. -/
def Image.flipTB (img : Image) : Image :=
  ⟨img.width, img.height, fun x y => img.pix x (img.height - 1 - y)⟩

/-- `base.paste(piece, (px, py))`. -/
def Image.paste (base piece : Image) (px py : Nat) : Image :=
  ⟨base.width, base.height, fun x y =>
    if px ≤ x ∧ x < px + piece.width ∧ py ≤ y ∧ y < py + piece.height then
      piece.pix (x - px) (y - py)
    else base.pix x y⟩

/-- `img.copy()`. -/
def Image.copy (img : Image) : Image := ⟨img.width, img.height, img.pix⟩

/-- The `mode == "left_to_right"` branch of `_apply_mirror`. -/
def mirror_left_to_right (image : Image) : Image :=
  let width := image.width
  let height := image.height
  let result := Image.new width height
  let half_width := (width + 1) / 2
  let other_half := width - half_width
  let left_half := image.crop 0 0 half_width height
  let right_half := left_half.flipLR
  let result := result.paste left_half 0 0
  if other_half > 0 then
    let right_piece :=
      right_half.crop (right_half.width - other_half) 0 right_half.width height
    result.paste right_piece half_width 0
  else result

/-- The `mode == "right_to_left"` branch of `_apply_mirror`. -/
def mirror_right_to_left (image : Image) : Image :=
  let width := image.width
  let height := image.height
  let result := Image.new width height
  let half_width := (width + 1) / 2
  let other_half := width - half_width
  let right_half := image.crop other_half 0 width height
  let left_half := right_half.flipLR
  let result :=
    if other_half > 0 then
      let left_piece := left_half.crop 0 0 other_half height
      result.paste left_piece 0 0
    else result
  result.paste right_half other_half 0

/-- The `mode == "top_to_bottom"` branch of `_apply_mirror`. -/
def mirror_top_to_bottom (image : Image) : Image :=
  let width := image.width
  let height := image.height
  let result := Image.new width height
  let half_height := (height + 1) / 2
  let other_half := height - half_height
  let top_half := image.crop 0 0 width half_height
  let bottom_half := top_half.flipTB
  let result := result.paste top_half 0 0
  if other_half > 0 then
    let bottom_piece :=
      bottom_half.crop 0 (bottom_half.height - other_half) width
        bottom_half.height
    result.paste bottom_piece 0 half_height
  else result

/-- The `mode == "bottom_to_top"` branch of `_apply_mirror`. -/
def mirror_bottom_to_top (image : Image) : Image :=
  let width := image.width
  let height := image.height
  let result := Image.new width height
  let half_height := (height + 1) / 2
  let other_half := height - half_height
  let bottom_half := image.crop 0 other_half width height
  let top_half := bottom_half.flipTB
  let result :=
    if other_half > 0 then
      let top_piece := top_half.crop 0 0 width other_half
      result.paste top_piece 0 0
    else result
  result.paste bottom_half 0 other_half

/-- `MirrorProcessor._apply_mirror`: dispatch on the mode string, with an
unmodified copy for unrecognized modes. -/
def apply_mirror (image : Image) (mode : String) : Image :=
  if mode = "left_to_right" then mirror_left_to_right image
  else if mode = "right_to_left" then mirror_right_to_left image
  else if mode = "top_to_bottom" then mirror_top_to_bottom image
  else if mode = "bottom_to_top" then mirror_bottom_to_top image
  else image.copy

/-- `MirrorProcessor._check_image_size`: hard 10000*10000 pixel ceiling
(the lower threshold only logs a warning). -/
def check_image_size (width height : Nat) : Bool :=
  if width * height > 10000 * 10000 then false else true

/-! ### `MirrorProcessor._process_gif` (lines 329-399) -/

/-- One frame as delivered by `ImageSequence.Iterator`. -/
structure GifFrame where
  frame : Image
  duration : Nat

/-- An opened animated image: canvas size plus the frame sequence. -/
structure GifImage where
  width : Nat
  height : Nat
  frames : List GifFrame

/-- The per-frame loop of `process_gif_in_thread`: count the frame,
reject past `MAX_FRAMES`, reject when `frame_count * frame_pixels`
exceeds `MAX_TOTAL_PIXELS`, otherwise record the duration and append the
mirrored (and, when enabled, compressed) frame.  `post` abstracts
`_compress_image` as applied by the loop (identity when compression is
disabled). -/
def gifLoopCore (post : Image → Image) (mode : String)
    (maxFrames maxTotalPixels : Nat) :
    List GifFrame → Nat → List Image → List Nat →
    Except String (Nat × List Image × List Nat)
  | [], count, frames, durations => .ok (count, frames, durations)
  | gf :: rest, count, frames, durations =>
    let frame_count := count + 1
    if frame_count > maxFrames then
      .error ("GIF帧数过多（" ++ toString frame_count ++ " > " ++
        toString maxFrames ++ "），可能存在安全风险")
    else
      let frame_pixels := gf.frame.width * gf.frame.height
      let total_pixels := frame_count * frame_pixels
      if total_pixels > maxTotalPixels then
        .error ("GIF总像素数过多（" ++ toString total_pixels ++
          "像素），可能存在安全风险")
      else
        gifLoopCore post mode maxFrames maxTotalPixels rest frame_count
          (frames ++ [post (apply_mirror gf.frame mode)])
          (durations ++ [gf.duration])

/-- The body of `process_gif_in_thread`: canvas-size check, the frame
loop, and the final save guarded by `len(frames) > 0`.  The result is
the processed frame list (`(True, ...)` in the source) or the rejection
message (`(None, msg)` leading to `(False, msg)`). -/
def process_gif (compressImage : Image → Image) (config : PluginConfig)
    (mode : String) (gif : GifImage) : Except String (List Image) :=
  if !(check_image_size gif.width gif.height) then
    .error ("GIF尺寸过大，可能存在安全风险: " ++ toString gif.width ++ "x" ++
      toString gif.height ++ "像素")
  else
    match gifLoopCore (if config.enable_compression then compressImage else id)
        mode config.max_gif_frames config.max_total_pixels
        gif.frames 0 [] [] with
    | .error e => .error e
    | .ok (_, frames, _) =>
      if frames.length > 0 then .ok frames else .error "GIF没有帧数据"

/-! ### `CleanupManager` (src/core/cleanup_manager.py)

The event loop is modelled by explicit task records; the filesystem by a
`Nat → Bool` existence oracle over abstract path identifiers. -/

/-- One entry of `cleanup_queue`. -/
structure CleanupEntry where
  path : Nat
  expiry_time : Nat
  scheduled_time : Nat
deriving Repr, DecidableEq

/-- One asyncio task, by identifier, with its completion state. -/
structure TaskRec where
  tid : Nat
  done : Bool
  cancelled : Bool
deriving Repr, DecidableEq

/-- The `CleanupManager` state: the queue, the registry of all tasks of
this loop, the identifiers tracked in `_pending_tasks`, the optional
`_cleanup_task`, and `_stop_event`. -/
structure CleanupState where
  cleanup_queue : List CleanupEntry
  tasks : List TaskRec
  pending_tasks : List Nat
  cleanup_task : Option Nat
  stop_event : Bool

/-- `_process_cleanup_queue` at a given time: entries whose expiry field
is falsy (0) or whose file is gone are dropped; expired entries have
their file unlinked and are dropped; the rest stay.  (A `Path` object is
always truthy, so the `not file_path` test in the source never fires.)
Returns the surviving queue and the updated filesystem. -/
def process_cleanup_queue (current_time : Nat) :
    List CleanupEntry → (Nat → Bool) → List CleanupEntry × (Nat → Bool)
  | [], fs => ([], fs)
  | e :: rest, fs =>
    if e.expiry_time = 0 || !(fs e.path) then
      process_cleanup_queue current_time rest fs
    else if current_time ≥ e.expiry_time then
      process_cleanup_queue current_time rest
        (fun p => if p = e.path then false else fs p)
    else
      let qfs := process_cleanup_queue current_time rest fs
      (e :: qfs.1, qfs.2)

/-- `task.cancel()` followed by awaiting the `CancelledError`, applied to
the tasks tracked in `_pending_tasks` that are not yet done. -/
def cancelIfPending (pending : List Nat) (t : TaskRec) : TaskRec :=
  if pending.contains t.tid && !t.done then
    { t with done := true, cancelled := true }
  else t

/-- The first phase of `cleanup_all`: when `_cleanup_task` exists and is
not done, set `_stop_event` and await it (up to the timeout, cancelling
on timeout; `loopExits` resolves that race), leaving it done. -/
def stopLoopTask (loopExits : Bool) (s : CleanupState) : CleanupState :=
  match s.cleanup_task with
  | some i =>
    match s.tasks.find? (fun (t : TaskRec) => t.tid == i) with
    | some t =>
      if !t.done then
        { s with
          stop_event := true
          tasks := s.tasks.map (fun (u : TaskRec) =>
            if u.tid == i then
              if loopExits then { u with done := true }
              else { u with done := true, cancelled := true }
            else u) }
      else s
    | none => s
  | none => s

/-- `CleanupManager.cleanup_all`: stop the loop task if it exists and is
not done, cancel every pending tracked task and clear the set, then
drain the queue once and clear it unconditionally.  Total even when
`start()` was never called (`cleanup_task = none`). -/
def cleanup_all (loopExits : Bool) (current_time : Nat) (fs : Nat → Bool)
    (s : CleanupState) : CleanupState × (Nat → Bool) :=
  let s1 := stopLoopTask loopExits s
  let s2 := { s1 with
    tasks := s1.tasks.map (cancelIfPending s1.pending_tasks),
    pending_tasks := ([] : List Nat) }
  let qfs := process_cleanup_queue current_time s2.cleanup_queue fs
  ({ s2 with cleanup_queue := [] }, qfs.2)

/-! ## Concrete inputs used by witnesses -/

/-- A DNS oracle that always fails to resolve. -/
def dnsNone : String → Option String := fun _ => none

/-- A DNS oracle resolving every name to a public address. -/
def dnsPub : String → Option String := fun _ => some "93.184.216.34"

/-- A small 3 by 2 test image with distinct pixels. -/
def sampleImage : Image := ⟨3, 2, fun x y => x + 10 * y⟩

/-! ## Theorems -/

/-! ### C1 -/

/-- C1: the claim states that `_is_safe_url_with_ip` returns `None` for
every URL whose hostname is a private, loopback, or link-local IP
literal, including the integer-encoded IPv4 form of 127.0.0.1
(2130706433).  The code violates this: `_is_ip_format` recognizes the
integer form, but `_is_private_ip` hands the undotted string to
`ipaddress.ip_address`, which raises, so the loopback classification
never fires and the URL is accepted (bypassing even the blacklist),
while the dotted form of the same address is rejected. -/
theorem c1_integer_ip_bypasses_check :
    is_safe_url_with_ip dnsNone "http://2130706433/" =
      some ("2130706433", "2130706433")
  ∧ is_ip_format "2130706433" = true
  ∧ ipv4IsLoopback 2130706433 = true
  ∧ is_private_ip "2130706433" = false
  ∧ is_safe_url_with_ip dnsNone "http://127.0.0.1/" = none := by
  refine ⟨by decide, by decide, by decide, by decide, by decide⟩

/-! ### C2 -/

/-- C2: `_get_local_file` rejects absolute paths; rejects relative paths
whose resolution against the data directory escapes it; consults the
filesystem only inside the data directory; and returns a path only when
the resolved path lies inside the data directory and the file exists. -/
theorem c2_get_local_file_confinement (data_dir : List String)
    (fsExists : List String → Bool) (file_path : String) :
    ((parsePath file_path).absolute = true →
      get_local_file data_dir fsExists file_path = none)
  ∧ (¬ (resolveSegs data_dir <+:
        resolveSegs (data_dir ++ (parsePath file_path).segments)) →
      get_local_file data_dir fsExists file_path = none)
  ∧ (∀ p, get_local_file data_dir fsExists file_path = some p →
      (resolveSegs data_dir <+: p) ∧ fsExists p = true)
  ∧ (∀ fsExists' : List String → Bool,
      (∀ q, resolveSegs data_dir <+: q → fsExists q = fsExists' q) →
      get_local_file data_dir fsExists file_path =
        get_local_file data_dir fsExists' file_path) := by
  refine ⟨?_, ?_, ?_, ?_⟩
  · intro habs
    simp [get_local_file, habs]
  · intro hpre
    by_cases habs : (parsePath file_path).absolute <;>
      simp [get_local_file, habs, hpre]
  · intro p hp
    unfold get_local_file at hp
    split_ifs at hp with habs h1 h2
    obtain rfl : resolveSegs (data_dir ++ (parsePath file_path).segments) = p :=
      Option.some.inj hp
    exact ⟨h1, h2⟩
  · intro fsExists' hagree
    by_cases habs : (parsePath file_path).absolute <;>
      simp only [get_local_file, habs, if_true, if_false, Bool.false_eq_true]
    by_cases hpre : resolveSegs data_dir <+:
        resolveSegs (data_dir ++ (parsePath file_path).segments)
    · simp only [hpre, if_true]
      rw [hagree _ hpre]
    · simp [hpre]

/-- C2 witness: a concrete data directory and filesystem exercising the
traversal rejection, the success case and the oracle-locality part. -/
theorem c2_witness :
    get_local_file ["data"] (fun q => q == ["data", "img"]) "/etc/passwd" = none
  ∧ get_local_file ["data"] (fun q => q == ["data", "img"]) "../secret" = none
  ∧ ((resolveSegs ["data"] <+: (["data", "img"] : List String))
      ∧ (fun (q : List String) => q == ["data", "img"]) ["data", "img"] = true)
  ∧ get_local_file ["data"] (fun q => q == ["data", "img"]) "img" =
      get_local_file ["data"] (fun q => q == ["data", "img"]) "img" := by
  refine ⟨?_, ?_, ?_, ?_⟩
  · exact (c2_get_local_file_confinement ["data"]
      (fun q => q == ["data", "img"]) "/etc/passwd").1 (by decide)
  · exact (c2_get_local_file_confinement ["data"]
      (fun q => q == ["data", "img"]) "../secret").2.1 (by decide)
  · exact (c2_get_local_file_confinement ["data"]
      (fun q => q == ["data", "img"]) "img").2.2.1 ["data", "img"] (by decide)
  · exact (c2_get_local_file_confinement ["data"]
      (fun q => q == ["data", "img"]) "img").2.2.2
      (fun q => q == ["data", "img"]) (fun _ _ => rfl)

/-! ### C4 -/

/-- The buffer stays bounded: a successful `streamRead` never returns
more than the ceiling when the incoming buffer is within it. -/
theorem streamRead_some_le (max_download_size : Nat) :
    ∀ chunks buffer b, streamRead max_download_size chunks buffer = some b →
      buffer.length ≤ max_download_size → b.length ≤ max_download_size := by
  intro chunks
  induction chunks with
  | nil =>
    intro buffer b h hb
    simp only [streamRead, Option.some.injEq] at h
    exact h ▸ hb
  | cons c rest ih =>
    intro buffer b h hb
    simp only [streamRead] at h
    split_ifs at h with hgt
    exact ih (buffer ++ c) b h (by omega)

/-- Overflow aborts: once the announced chunk lengths exceed the ceiling,
the read fails, and it fails without looking at later chunks. -/
theorem streamRead_overflow (max_download_size : Nat) :
    ∀ pre post buffer, buffer.length ≤ max_download_size →
      max_download_size < buffer.length + (pre.map List.length).sum →
      streamRead max_download_size (pre ++ post) buffer = none
      ∧ streamRead max_download_size pre buffer = none := by
  intro pre
  induction pre with
  | nil =>
    intro post buffer h1 h2
    exfalso
    simp at h2
    omega
  | cons c rest ih =>
    intro post buffer h1 h2
    by_cases hgt : (buffer ++ c).length > max_download_size
    · constructor <;>
      · show streamRead max_download_size (c :: _) buffer = none
        rw [streamRead, if_pos hgt]
    · have hlen : (buffer ++ c).length = buffer.length + c.length :=
        List.length_append buffer c
      have h2' : max_download_size <
          (buffer ++ c).length + ((rest.map List.length).sum) := by
        simp only [List.map_cons, List.sum_cons] at h2
        omega
      have hres := ih post (buffer ++ c) (by omega) h2'
      constructor
      · show streamRead max_download_size (c :: (rest ++ post)) buffer = none
        rw [streamRead, if_neg hgt]
        exact hres.1
      · rw [streamRead, if_neg hgt]
        exact hres.2

/-- C4: every buffer returned by `download_image` has length at most the
configured ceiling; a non-200 status yields `None`; and once the
accumulated chunk lengths exceed the ceiling the result is `None` and is
already determined by the offending prefix (later chunks are never
consumed). -/
theorem c4_download_image_bounded (dns : String → Option String)
    (max_download_size : Nat) (url : String) (status : Nat) :
    (∀ chunks b,
      download_image dns max_download_size url status chunks = some b →
      b.length ≤ max_download_size)
  ∧ (∀ chunks, status ≠ 200 →
      download_image dns max_download_size url status chunks = none)
  ∧ (∀ pre post, max_download_size < (pre.map List.length).sum →
      download_image dns max_download_size url status (pre ++ post) = none
      ∧ download_image dns max_download_size url status (pre ++ post) =
        download_image dns max_download_size url status pre) := by
  refine ⟨?_, ?_, ?_⟩
  · intro chunks b h
    cases hs : is_safe_url_with_ip dns url with
    | none => simp [download_image, hs] at h
    | some v =>
      simp only [download_image, hs] at h
      split_ifs at h with h200
      exact streamRead_some_le max_download_size chunks [] b h (Nat.zero_le _)
  · intro chunks h200
    cases hs : is_safe_url_with_ip dns url with
    | none => simp [download_image, hs]
    | some v => simp [download_image, hs, h200]
  · intro pre post hover
    cases hs : is_safe_url_with_ip dns url with
    | none => simp [download_image, hs]
    | some v =>
      by_cases h200 : status ≠ 200
      · simp [download_image, hs, h200]
      · have hres := streamRead_overflow max_download_size pre post []
          (Nat.zero_le _) (by simpa using hover)
        simp [download_image, hs, h200, hres.1, hres.2]

/-- C4 witness: a successful bounded download, a 404 failure, and an
overflow abort at concrete inputs. -/
theorem c4_witness :
    ([([1, 2] : List Nat), [3]].map List.length).sum ≤ 10
  ∧ ([1, 2, 3] : List Nat).length ≤ 10
  ∧ download_image dnsPub 10 "http://example.com/a.png" 404 [[1, 2]] = none
  ∧ download_image dnsPub 1 "http://example.com/a.png" 200
      ([[1, 2]] ++ [[3]]) = none := by
  refine ⟨by decide, ?_, ?_, ?_⟩
  · exact (c4_download_image_bounded dnsPub 10 "http://example.com/a.png"
      200).1 [[1, 2], [3]] [1, 2, 3] (by decide)
  · exact (c4_download_image_bounded dnsPub 10 "http://example.com/a.png"
      404).2.1 [[1, 2]] (by decide)
  · exact ((c4_download_image_bounded dnsPub 1 "http://example.com/a.png"
      200).2.2 [[1, 2]] [[3]] (by decide)).1

/-! ### C9 -/

/-- C9: for every mode string outside the four recognized mirror modes,
`_apply_mirror` returns an unmodified copy of the input (same dimensions,
identical pixels) and never signals an error (it is total). -/
theorem c9_apply_mirror_unrecognized (image : Image) (mode : String)
    (h1 : mode ≠ "left_to_right") (h2 : mode ≠ "right_to_left")
    (h3 : mode ≠ "top_to_bottom") (h4 : mode ≠ "bottom_to_top") :
    (apply_mirror image mode).width = image.width
  ∧ (apply_mirror image mode).height = image.height
  ∧ ∀ x y, (apply_mirror image mode).pix x y = image.pix x y := by
  simp [apply_mirror, h1, h2, h3, h4, Image.copy]

/-- C9 witness: the unrecognized mode `"diagonal"` on the sample image. -/
theorem c9_witness :
    (apply_mirror sampleImage "diagonal").width = sampleImage.width
  ∧ (apply_mirror sampleImage "diagonal").height = sampleImage.height
  ∧ (apply_mirror sampleImage "diagonal").pix 2 1 = sampleImage.pix 2 1 := by
  have h := c9_apply_mirror_unrecognized sampleImage "diagonal"
    (by decide) (by decide) (by decide) (by decide)
  exact ⟨h.1, h.2.1, h.2.2 2 1⟩

/-! ### C10 -/

/-- C10: `detect_image_format_by_magic` returns `None` for every input of
fewer than 12 bytes — even one starting with a complete recognized magic
signature — so the `_download_image` extension choice falls back to the
URL extension or the `.jpg` default. -/
theorem c10_magic_short_input (data : List Nat) (h : data.length < 12) :
    detect_image_format_by_magic data = none
  ∧ ∀ url, choose_download_ext data url =
      match get_file_extension url with
      | some ext => ext
      | none => ".jpg" := by
  have hd : detect_image_format_by_magic data = none := by
    simp [detect_image_format_by_magic, h]
  exact ⟨hd, fun url => by simp [choose_download_ext, hd]⟩

/-- C10 witness: the full 8-byte PNG signature alone is inconclusive and
the caller falls back to the URL extension. -/
theorem c10_witness :
    detect_image_format_by_magic
      [0x89, 0x50, 0x4E, 0x47, 0x0D, 0x0A, 0x1A, 0x0A] = none
  ∧ choose_download_ext [0x89, 0x50, 0x4E, 0x47, 0x0D, 0x0A, 0x1A, 0x0A]
      "http://host/pic.PNG?v=1" = ".png" := by
  have h := c10_magic_short_input
    [0x89, 0x50, 0x4E, 0x47, 0x0D, 0x0A, 0x1A, 0x0A] (by decide)
  refine ⟨h.1, ?_⟩
  rw [h.2 "http://host/pic.PNG?v=1"]
  decide

/-! ### C7 -/

/-- `stopLoopTask` does not change the pending-task set. -/
theorem stopLoopTask_pending_tasks (loopExits : Bool) (s : CleanupState) :
    (stopLoopTask loopExits s).pending_tasks = s.pending_tasks := by
  cases hct : s.cleanup_task with
  | none => simp [stopLoopTask, hct]
  | some i =>
    cases hf : s.tasks.find? (fun (t : TaskRec) => t.tid == i) with
    | none => simp [stopLoopTask, hct, hf]
    | some t =>
      by_cases hd : t.done <;> simp [stopLoopTask, hct, hf, hd]

/-- A tracked pending task is untouched by `stopLoopTask` (the loop task
is never tracked in the pending set). -/
theorem stopLoopTask_mem (loopExits : Bool) (s : CleanupState)
    (hloop : ∀ i, s.cleanup_task = some i → i ∉ s.pending_tasks)
    (t : TaskRec) (ht : t ∈ s.tasks) (hp : t.tid ∈ s.pending_tasks) :
    t ∈ (stopLoopTask loopExits s).tasks := by
  cases hct : s.cleanup_task with
  | none => simpa [stopLoopTask, hct] using ht
  | some i =>
    cases hf : s.tasks.find? (fun (u : TaskRec) => u.tid == i) with
    | none => simpa [stopLoopTask, hct, hf] using ht
    | some u =>
      by_cases hd : u.done
      · simpa [stopLoopTask, hct, hf, hd] using ht
      · have hne : t.tid ≠ i := fun he => (hloop i hct) (he ▸ hp)
        simp only [stopLoopTask, hct, hf, hd, Bool.not_false, if_true]
        exact List.mem_map.mpr ⟨t, ht, by simp [hne]⟩

/-- C7: after `cleanup_all` the queue and the pending-task set are empty,
and every previously pending, not-yet-done tracked task has been
cancelled; this holds whether or not `start()` ever ran (the state with
`cleanup_task = none` is handled by the same total function).  The
hypothesis records the class invariant that the loop task is never
tracked in `_pending_tasks`. -/
theorem c7_cleanup_all_drains (loopExits : Bool) (current_time : Nat)
    (fs : Nat → Bool) (s : CleanupState)
    (hloop : ∀ i, s.cleanup_task = some i → i ∉ s.pending_tasks) :
    (cleanup_all loopExits current_time fs s).1.cleanup_queue = []
  ∧ (cleanup_all loopExits current_time fs s).1.pending_tasks = []
  ∧ ∀ t ∈ s.tasks, t.tid ∈ s.pending_tasks → t.done = false →
      ∃ t' ∈ (cleanup_all loopExits current_time fs s).1.tasks,
        t'.tid = t.tid ∧ t'.cancelled = true ∧ t'.done = true := by
  refine ⟨rfl, rfl, ?_⟩
  intro t ht hp hdone
  have h1 : t ∈ (stopLoopTask loopExits s).tasks :=
    stopLoopTask_mem loopExits s hloop t ht hp
  refine ⟨cancelIfPending s.pending_tasks t, ?_, ?_⟩
  · show cancelIfPending s.pending_tasks t ∈
      (stopLoopTask loopExits s).tasks.map
        (cancelIfPending (stopLoopTask loopExits s).pending_tasks)
    rw [stopLoopTask_pending_tasks]
    exact List.mem_map.mpr ⟨t, h1, rfl⟩
  · simp [cancelIfPending, hp, hdone]

/-- C7 witness: one pending deferred-deletion task, one queue entry, and
`start()` never called. -/
theorem c7_witness :
    (cleanup_all true 100 (fun _ => true)
      ⟨[⟨1, 50, 10⟩], [⟨7, false, false⟩], [7], none, false⟩).1.cleanup_queue
      = []
  ∧ (cleanup_all true 100 (fun _ => true)
      ⟨[⟨1, 50, 10⟩], [⟨7, false, false⟩], [7], none, false⟩).1.pending_tasks
      = []
  ∧ ∃ t' ∈ (cleanup_all true 100 (fun _ => true)
      ⟨[⟨1, 50, 10⟩], [⟨7, false, false⟩], [7], none, false⟩).1.tasks,
      t'.tid = 7 ∧ t'.cancelled = true ∧ t'.done = true := by
  have h := c7_cleanup_all_drains true 100 (fun _ => true)
    ⟨[⟨1, 50, 10⟩], [⟨7, false, false⟩], [7], none, false⟩
    (fun i hi => by simp at hi)
  exact ⟨h.1, h.2.1, h.2.2 ⟨7, false, false⟩ (by decide) (by decide) rfl⟩

/-! ### C3 -/

/-- Strict base64: any character outside the base64 alphabet (other than
the pad `=`) anywhere in the input makes decoding fail — malformed input
is rejected, never repaired. -/
theorem a2b64_invalid (c : Char) (hv : b64Val c = none) (hne : c ≠ '=') :
    ∀ cs pos left acc started pads, c ∈ cs →
      a2b64Strict cs pos left acc started pads = none := by
  intro cs
  induction cs with
  | nil => intro pos left acc started pads hc; exact absurd hc (by simp)
  | cons d rest ih =>
    intro pos left acc started pads hc
    rcases List.mem_cons.mp hc with rfl | hc
    · rw [a2b64Strict, if_neg hne]
      simp [hv]
    · by_cases hd : d = '='
      · rw [a2b64Strict, if_pos hd]
        by_cases h1 : (decide (pos ≥ 2) && decide (pos + (pads + 1) ≥ 4)) = true
        · rw [if_pos h1, if_neg (List.ne_nil_of_mem hc)]
        · rw [if_neg h1]
          by_cases h2 : (decide (pos = 0) && decide (acc = [])) = true
          · rw [if_pos h2]
          · rw [if_neg h2]
            exact ih _ _ _ _ _ hc
      · rw [a2b64Strict, if_neg hd]
        cases hbv : b64Val d with
        | none => rfl
        | some v =>
          by_cases hst : started = true
          · simp [hst]
          · simp only [Bool.not_eq_true] at hst
            subst hst
            simp only [Bool.false_eq_true, if_false]
            rcases pos with _ | _ | _ | n <;> exact ih _ _ _ _ _ hc

/-- C3: the base64 ingestion guards of `_decode_base64_image`: an encoded
payload longer than the pre-decode budget is rejected without invoking
the decoder (the result does not depend on the decoder at all); a
successfully decoded payload larger than the configured image-size limit
is rejected; a payload the strict decoder fails on is rejected; and in
particular any payload containing a character outside the base64
alphabet is rejected rather than repaired. -/
theorem c3_decode_base64_guards (config : Option PluginConfig) (s : String) :
    ((strippedB64 s).length > MAX_BASE64_LENGTH →
      decode_base64_image config s = none
      ∧ ∀ dec dec' : String → Option (List Nat),
          decodeBase64ImageWith dec config s =
            decodeBase64ImageWith dec' config s)
  ∧ (∀ data, b64decodeStrict (strippedB64 s) = some data →
      data.length > b64MaxSize config → decode_base64_image config s = none)
  ∧ (b64decodeStrict (strippedB64 s) = none →
      decode_base64_image config s = none)
  ∧ (∀ c ∈ (strippedB64 s).data, b64Val c = none → c ≠ '=' →
      decode_base64_image config s = none) := by
  refine ⟨?_, ?_, ?_, ?_⟩
  · intro hlen
    constructor
    · simp [decode_base64_image, decodeBase64ImageWith, hlen]
    · intro dec dec'
      simp [decodeBase64ImageWith, hlen]
  · intro data hdec hsize
    by_cases hlen : (strippedB64 s).length > MAX_BASE64_LENGTH
    · simp [decode_base64_image, decodeBase64ImageWith, hlen]
    · simp [decode_base64_image, decodeBase64ImageWith, hlen, hdec, hsize]
  · intro hdec
    by_cases hlen : (strippedB64 s).length > MAX_BASE64_LENGTH <;>
      simp [decode_base64_image, decodeBase64ImageWith, hlen, hdec]
  · intro c hc hv hne
    have hdec : b64decodeStrict (strippedB64 s) = none :=
      a2b64_invalid c hv hne (strippedB64 s).data 0 0 [] false 0 hc
    by_cases hlen : (strippedB64 s).length > MAX_BASE64_LENGTH <;>
      simp [decode_base64_image, decodeBase64ImageWith, hlen, hdec]

/-- The oversized payload used by the C3 witness: one more character
than the pre-decode budget allows. -/
def bigB64 : String := ⟨List.replicate (MAX_BASE64_LENGTH + 1) 'A'⟩

/-- `bigB64` does not carry the `base64://` marker and exceeds the
pre-decode budget. -/
theorem bigB64_long : (strippedB64 bigB64).length > MAX_BASE64_LENGTH := by
  have hnp : pyStartswith bigB64 "base64://" = false := by
    have : ¬ ("base64://".data <+: bigB64.data) := by
      intro hpre
      obtain ⟨t, ht⟩ := hpre
      have h1 : ("base64://".data ++ t).head? = some 'b' := rfl
      rw [ht] at h1
      have h2 : bigB64.data.head? = some 'A' := by
        show (List.replicate (MAX_BASE64_LENGTH + 1) 'A').head? = some 'A'
        rw [List.replicate_succ]
        rfl
      rw [h2] at h1
      simp at h1
    simp [pyStartswith, this]
  have hs : strippedB64 bigB64 = bigB64 := by
    simp [strippedB64, hnp]
  rw [hs]
  show (List.replicate (MAX_BASE64_LENGTH + 1) 'A').length > MAX_BASE64_LENGTH
  rw [List.length_replicate]
  omega

/-- C3 witness: the three rejection paths at concrete inputs — the
oversized payload (with two different decoders agreeing), an in-budget
payload whose decoded size exceeds a zero-size limit, and a payload with
a character outside the alphabet. -/
theorem c3_witness :
    decode_base64_image none bigB64 = none
  ∧ decodeBase64ImageWith (fun _ => some []) none bigB64 =
      decodeBase64ImageWith (fun _ => none) none bigB64
  ∧ decode_base64_image (some { image_size_limit_mb := 0 }) "QUJD" = none
  ∧ decode_base64_image none "base64://!!!" = none := by
  refine ⟨?_, ?_, ?_, ?_⟩
  · exact ((c3_decode_base64_guards none bigB64).1 bigB64_long).1
  · exact ((c3_decode_base64_guards none bigB64).1 bigB64_long).2
      (fun _ => some []) (fun _ => none)
  · exact (c3_decode_base64_guards (some { image_size_limit_mb := 0 })
      "QUJD").2.1 [65, 66, 67] (by decide) (by decide)
  · exact (c3_decode_base64_guards none "base64://!!!").2.2.2 '!' (by decide)
      (by decide) (by decide)

/-! ### C5 -/

/-- C5 counterexample: the hostname `2600::1%x.internal` carries the
denylisted suffix `.internal`, yet the URL safety check accepts it (with
a validated target) instead of rejecting: `ipaddress.ip_address` accepts
scoped IPv6 literals, so the bracketed URL takes the IP-literal branch
before the denylist is consulted, and the address part is public. -/
theorem c5_counterexample :
    pyEndswith "2600::1%x.internal" ".internal" = true
  ∧ is_safe_url_with_ip dnsNone "http://[2600::1%x.internal]/" =
      some ("2600::1%x.internal", "2600::1%x.internal")
  ∧ checkHostname dnsNone "2600::1%x.internal" =
      some ("2600::1%x.internal", "2600::1%x.internal") := by
  refine ⟨by decide, by decide, by decide⟩

/-- A suffix of a string determines its last character. -/
theorem pyEndswith_getLast (h p : String) (hp : pyEndswith h p = true)
    (hne : p.data ≠ []) : h.data.getLast? = p.data.getLast? := by
  have hsuf : p.data <:+ h.data := by simpa [pyEndswith] using hp
  obtain ⟨t, ht⟩ := hsuf
  rw [← ht, List.getLast?_append_of_ne_nil t hne]

/-- A matching pattern makes the blacklist loop reject. -/
theorem matches_of_pattern (h p : String) (hmem : p ∈ DANGEROUS_PATTERNS)
    (hdisj : (h == p || pyEndswith h ("." ++ cleanPattern p) ||
      pyStartswith h p) = true) : matchesDangerousPattern h = true :=
  List.any_eq_true.mpr ⟨p, hmem, hdisj⟩

/-- For a dot-led pattern the blacklist suffix test is exactly the
pattern itself. -/
theorem sufFalse_dotted (hostname p : String)
    (heq : ("." ++ cleanPattern p) = p)
    (hnsuf : ¬ (p.data <:+ hostname.data)) :
    pyEndswith hostname ("." ++ cleanPattern p) = false := by
  rw [heq]
  simp [pyEndswith, hnsuf]

/-- For a plain pattern the blacklist suffix test implies the pattern is
itself a suffix, so interior occurrences never match. -/
theorem sufFalse_undotted (hostname p : String)
    (hdata : ("." ++ cleanPattern p).data = '.' :: p.data)
    (hnsuf : ¬ (p.data <:+ hostname.data)) :
    pyEndswith hostname ("." ++ cleanPattern p) = false := by
  apply decide_eq_false
  intro hsuf
  rw [hdata] at hsuf
  exact hnsuf ((List.suffix_cons '.' p.data).trans hsuf)

/-- No component of the blacklist test fires for a pattern that is
neither equal to, a prefix of, nor a suffix of the hostname. -/
theorem pattern_no_match (hostname p : String) (hne : hostname ≠ p)
    (hnpre : ¬ (p.data <+: hostname.data))
    (hsufFalse : pyEndswith hostname ("." ++ cleanPattern p) = false) :
    ¬ ((hostname == p || pyEndswith hostname ("." ++ cleanPattern p) ||
      pyStartswith hostname p) = true) := by
  simp [pyStartswith, hne, hnpre, hsufFalse]

/-- C5 (amended): hostnames equal to denylisted sensitive names are
rejected by the URL safety check for every DNS oracle; a hostname that
is not an IP-address literal and carries one of the denylisted suffixes
`.internal`, `.local`, `.localdomain` is rejected (the amendment excludes
IP-literal hostnames — see the counterexample with a scoped IPv6
literal); and the blacklist uses exact/suffix/prefix matching, not
substring containment, so a hostname in which patterns occur at most as
interior substrings is not rejected by this check. -/
theorem c5_denylist_matching (dns : String → Option String)
    (hostname : String) :
    (∀ h ∈ (["localhost", "127.0.0.1", "0.0.0.0", "::1", "169.254.169.254",
        "metadata.google.internal"] : List String),
      checkHostname dns h = none)
  ∧ (is_ip_format hostname = false →
      (pyEndswith hostname ".internal" || pyEndswith hostname ".local" ||
        pyEndswith hostname ".localdomain") = true →
      checkHostname dns hostname = none)
  ∧ ((∀ p ∈ DANGEROUS_PATTERNS, hostname ≠ p ∧ ¬ (p.data <+: hostname.data)
        ∧ ¬ (p.data <:+ hostname.data)) →
      matchesDangerousPattern hostname = false) := by
  refine ⟨?_, ?_, ?_⟩
  · intro h hmem
    simp only [List.mem_cons, List.not_mem_nil, or_false] at hmem
    rcases hmem with rfl | rfl | rfl | rfl | rfl | rfl <;> rfl
  · intro hip hsuf
    simp only [Bool.or_eq_true] at hsuf
    have hlast : hostname.data.getLast? = some 'l' ∨
        hostname.data.getLast? = some 'n' := by
      rcases hsuf with (h1 | h1) | h1
      · exact Or.inl
          ((pyEndswith_getLast hostname _ h1 (by decide)).trans (by decide))
      · exact Or.inl
          ((pyEndswith_getLast hostname _ h1 (by decide)).trans (by decide))
      · exact Or.inr
          ((pyEndswith_getLast hostname _ h1 (by decide)).trans (by decide))
    have hbr : pyEndswith hostname "]" = false := by
      cases hbe : pyEndswith hostname "]" with
      | false => rfl
      | true =>
        have h2 := pyEndswith_getLast hostname "]" hbe (by decide)
        rcases hlast with h3 | h3 <;> rw [h3] at h2 <;> simp at h2
    have hmat : matchesDangerousPattern hostname = true := by
      rcases hsuf with (h1 | h1) | h1
      · exact matches_of_pattern hostname ".internal" (by decide)
          (by rw [show ("." ++ cleanPattern ".internal") = ".internal"
                from by decide]
              simp [h1])
      · exact matches_of_pattern hostname ".local" (by decide)
          (by rw [show ("." ++ cleanPattern ".local") = ".local"
                from by decide]
              simp [h1])
      · exact matches_of_pattern hostname ".localdomain" (by decide)
          (by rw [show ("." ++ cleanPattern ".localdomain") = ".localdomain"
                from by decide]
              simp [h1])
    simp [checkHostname, hip, hbr, hmat]
  · intro hyp
    refine List.any_eq_false.mpr ?_
    intro p hp
    obtain ⟨hne, hnpre, hnsuf⟩ := hyp p hp
    fin_cases hp <;>
      first
      | exact pattern_no_match hostname _ hne hnpre
          (sufFalse_undotted hostname _ (by decide) hnsuf)
      | exact pattern_no_match hostname _ hne hnpre
          (sufFalse_dotted hostname _ (by decide) hnsuf)

/-- C5 witness: a denylisted exact name, a non-IP hostname with a
denylisted suffix, and a hostname containing `localhost` only as an
interior substring. -/
theorem c5_witness :
    checkHostname dnsNone "localhost" = none
  ∧ checkHostname dnsNone "corp.internal" = none
  ∧ matchesDangerousPattern "my.localhost.example.com" = false := by
  refine ⟨?_, ?_, ?_⟩
  · exact (c5_denylist_matching dnsNone "localhost").1 "localhost" (by simp)
  · exact (c5_denylist_matching dnsNone "corp.internal").2.1 (by decide)
      (by decide)
  · exact (c5_denylist_matching dnsNone "my.localhost.example.com").2.2
      (by decide)

/-! ### C6 -/

/-- Whether an `Except` result is the error case. -/
def isErr {ε α : Type} : Except ε α → Bool
  | .error _ => true
  | .ok _ => false

/-- The GIF frame loop processes an appended list by running the first
part and, unless it rejected, continuing with the second. -/
theorem gifLoopCore_append (post : Image → Image) (mode : String)
    (maxFrames maxTotalPixels : Nat) :
    ∀ l₁ l₂ count frames durations,
      gifLoopCore post mode maxFrames maxTotalPixels (l₁ ++ l₂)
        count frames durations =
      match gifLoopCore post mode maxFrames maxTotalPixels l₁
          count frames durations with
      | .error e => .error e
      | .ok (c, f, d) =>
        gifLoopCore post mode maxFrames maxTotalPixels l₂ c f d := by
  intro l₁
  induction l₁ with
  | nil => intro l₂ count frames durations; rfl
  | cons g rest ih =>
    intro l₂ count frames durations
    simp only [List.cons_append, gifLoopCore]
    split_ifs with h1 h2
    · rfl
    · rfl
    · exact ih l₂ (count + 1) _ _

/-- A rejection is already determined by the prefix that caused it. -/
theorem gifLoopCore_error_prefix (post : Image → Image) (mode : String)
    (maxFrames maxTotalPixels : Nat) (l₁ l₂ : List GifFrame)
    (count : Nat) (frames : List Image) (durations : List Nat)
    (herr : isErr (gifLoopCore post mode maxFrames maxTotalPixels l₁
      count frames durations) = true) :
    gifLoopCore post mode maxFrames maxTotalPixels (l₁ ++ l₂)
      count frames durations =
    gifLoopCore post mode maxFrames maxTotalPixels l₁
      count frames durations := by
  rw [gifLoopCore_append]
  cases h : gifLoopCore post mode maxFrames maxTotalPixels l₁
      count frames durations with
  | error e => rfl
  | ok v => rw [h] at herr; simp [isErr] at herr

/-- With more frames remaining than the cap allows, the loop rejects. -/
theorem gifLoopCore_cap (post : Image → Image) (mode : String)
    (maxFrames maxTotalPixels : Nat) :
    ∀ l count frames durations, count + l.length > maxFrames →
      count ≤ maxFrames →
      isErr (gifLoopCore post mode maxFrames maxTotalPixels l
        count frames durations) = true := by
  intro l
  induction l with
  | nil =>
    intro count frames durations h1 h2
    exfalso
    simp at h1
    omega
  | cons g rest ih =>
    intro count frames durations h1 h2
    simp only [gifLoopCore]
    split_ifs with hcap hpix
    · simp [isErr]
    · simp [isErr]
    · exact ih (count + 1) _ _ (by simp at h1 ⊢; omega) (by omega)

/-- A frame whose position-weighted pixel count exceeds the budget makes
the loop reject. -/
theorem gifLoopCore_pix (post : Image → Image) (mode : String)
    (maxFrames maxTotalPixels : Nat) :
    ∀ l count frames durations k (hk : k < l.length),
      (count + k + 1) * ((l.get ⟨k, hk⟩).frame.width *
        (l.get ⟨k, hk⟩).frame.height) > maxTotalPixels →
      isErr (gifLoopCore post mode maxFrames maxTotalPixels l
        count frames durations) = true := by
  intro l
  induction l with
  | nil => intro count frames durations k hk; exact absurd hk (by simp)
  | cons g rest ih =>
    intro count frames durations k hk hpix
    simp only [gifLoopCore]
    split_ifs with hcap hp
    · simp [isErr]
    · simp [isErr]
    · cases k with
      | zero =>
        exfalso
        apply hp
        simpa using hpix
      | succ k' =>
        have hk' : k' < rest.length := by simpa using hk
        have hpix' : (count + 1 + k' + 1) * ((rest.get ⟨k', hk'⟩).frame.width *
            (rest.get ⟨k', hk'⟩).frame.height) > maxTotalPixels := by
          have harith : count + 1 + k' + 1 = count + (k' + 1) + 1 := by omega
          rw [harith]
          exact hpix
        exact ih (count + 1) _ _ k' hk' hpix'

/-- C6: a GIF with more frames than `max_gif_frames` is rejected, and the
result is already determined by the first `max_gif_frames + 1` frames
(iteration stops at the cap; at most cap + 1 frames are decoded); a
frame whose frames-seen-times-per-frame-pixels product exceeds
`max_total_pixels` causes rejection determined by the frames up to and
including it — both checks act incrementally during iteration, not after
buffering all frames. -/
theorem c6_process_gif_incremental (compressImage : Image → Image)
    (config : PluginConfig) (mode : String) (gif : GifImage) :
    (gif.frames.length > config.max_gif_frames →
      isErr (process_gif compressImage config mode gif) = true
      ∧ process_gif compressImage config mode gif =
        process_gif compressImage config mode
          ⟨gif.width, gif.height,
            gif.frames.take (config.max_gif_frames + 1)⟩)
  ∧ (∀ k (hk : k < gif.frames.length),
      (k + 1) * ((gif.frames.get ⟨k, hk⟩).frame.width *
        (gif.frames.get ⟨k, hk⟩).frame.height) > config.max_total_pixels →
      isErr (process_gif compressImage config mode gif) = true
      ∧ process_gif compressImage config mode gif =
        process_gif compressImage config mode
          ⟨gif.width, gif.height, gif.frames.take (k + 1)⟩) := by
  constructor
  · intro hlen
    by_cases hcz : check_image_size gif.width gif.height
    · have hlt : (gif.frames.take (config.max_gif_frames + 1)).length =
          config.max_gif_frames + 1 := by
        rw [List.length_take]
        omega
      have htake := gifLoopCore_cap
        (if config.enable_compression then compressImage else id) mode
        config.max_gif_frames config.max_total_pixels
        (gif.frames.take (config.max_gif_frames + 1)) 0 [] []
        (by rw [hlt]; omega) (Nat.zero_le _)
      have hq : gifLoopCore
          (if config.enable_compression then compressImage else id) mode
          config.max_gif_frames config.max_total_pixels gif.frames 0 [] [] =
          gifLoopCore
          (if config.enable_compression then compressImage else id) mode
          config.max_gif_frames config.max_total_pixels
          (gif.frames.take (config.max_gif_frames + 1)) 0 [] [] := by
        conv_lhs => rw [← List.take_append_drop (config.max_gif_frames + 1)
          gif.frames]
        exact gifLoopCore_error_prefix _ _ _ _ _ _ _ _ _ htake
      constructor
      · simp only [process_gif, hcz, Bool.not_true, Bool.false_eq_true,
          if_false, hq]
        cases hcore : gifLoopCore
            (if config.enable_compression then compressImage else id) mode
            config.max_gif_frames config.max_total_pixels
            (gif.frames.take (config.max_gif_frames + 1)) 0 [] [] with
        | error e => simp [isErr]
        | ok v => rw [hcore] at htake; simp [isErr] at htake
      · simp only [process_gif, hcz, Bool.not_true, Bool.false_eq_true,
          if_false, hq]
    · constructor
      · simp [process_gif, hcz, isErr]
      · simp [process_gif, hcz]
  · intro k hk hpix
    by_cases hcz : check_image_size gif.width gif.height
    · have hk' : k < (gif.frames.take (k + 1)).length := by
        rw [List.length_take]
        omega
      have hgetTake : (gif.frames.take (k + 1)).get ⟨k, hk'⟩ =
          gif.frames.get ⟨k, hk⟩ := by
        simp [List.getElem_take']
      have htake := gifLoopCore_pix
        (if config.enable_compression then compressImage else id) mode
        config.max_gif_frames config.max_total_pixels
        (gif.frames.take (k + 1)) 0 [] [] k hk'
        (by rw [hgetTake]; simpa using hpix)
      have hq : gifLoopCore
          (if config.enable_compression then compressImage else id) mode
          config.max_gif_frames config.max_total_pixels gif.frames 0 [] [] =
          gifLoopCore
          (if config.enable_compression then compressImage else id) mode
          config.max_gif_frames config.max_total_pixels
          (gif.frames.take (k + 1)) 0 [] [] := by
        conv_lhs => rw [← List.take_append_drop (k + 1) gif.frames]
        exact gifLoopCore_error_prefix _ _ _ _ _ _ _ _ _ htake
      constructor
      · simp only [process_gif, hcz, Bool.not_true, Bool.false_eq_true,
          if_false, hq]
        cases hcore : gifLoopCore
            (if config.enable_compression then compressImage else id) mode
            config.max_gif_frames config.max_total_pixels
            (gif.frames.take (k + 1)) 0 [] [] with
        | error e => simp [isErr]
        | ok v => rw [hcore] at htake; simp [isErr] at htake
      · simp only [process_gif, hcz, Bool.not_true, Bool.false_eq_true,
          if_false, hq]
    · constructor
      · simp [process_gif, hcz, isErr]
      · simp [process_gif, hcz]

/-- C6 witness: a three-frame GIF against a cap of one frame, and a
two-frame GIF whose second frame blows the pixel budget at its
position. -/
theorem c6_witness :
    isErr (process_gif id { max_gif_frames := 200, max_total_pixels := 6 }
      "left_to_right"
      ⟨1, 1, [⟨⟨1, 1, fun _ _ => 0⟩, 100⟩, ⟨⟨2, 2, fun _ _ => 0⟩, 100⟩]⟩)
      = true
  ∧ isErr (process_gif id { max_gif_frames := 1, max_total_pixels := 1000 }
      "left_to_right"
      ⟨1, 1, [⟨⟨1, 1, fun _ _ => 0⟩, 100⟩, ⟨⟨1, 1, fun _ _ => 0⟩, 100⟩]⟩)
      = true
  ∧ process_gif id { max_gif_frames := 1, max_total_pixels := 1000 }
      "left_to_right"
      ⟨1, 1, [⟨⟨1, 1, fun _ _ => 0⟩, 100⟩, ⟨⟨1, 1, fun _ _ => 0⟩, 100⟩]⟩ =
    process_gif id { max_gif_frames := 1, max_total_pixels := 1000 }
      "left_to_right"
      ⟨1, 1, ([⟨⟨1, 1, fun _ _ => 0⟩, 100⟩,
        ⟨⟨1, 1, fun _ _ => 0⟩, 100⟩] : List GifFrame).take 2⟩ := by
  refine ⟨?_, ?_, ?_⟩
  · exact ((c6_process_gif_incremental id
      { max_gif_frames := 200, max_total_pixels := 6 } "left_to_right"
      ⟨1, 1, [⟨⟨1, 1, fun _ _ => 0⟩, 100⟩, ⟨⟨2, 2, fun _ _ => 0⟩, 100⟩]⟩).2
      1 (by decide) (by norm_num)).1
  · exact ((c6_process_gif_incremental id
      { max_gif_frames := 1, max_total_pixels := 1000 } "left_to_right"
      ⟨1, 1, [⟨⟨1, 1, fun _ _ => 0⟩, 100⟩, ⟨⟨1, 1, fun _ _ => 0⟩, 100⟩]⟩).1
      (by norm_num)).1
  · exact ((c6_process_gif_incremental id
      { max_gif_frames := 1, max_total_pixels := 1000 } "left_to_right"
      ⟨1, 1, [⟨⟨1, 1, fun _ _ => 0⟩, 100⟩, ⟨⟨1, 1, fun _ _ => 0⟩, 100⟩]⟩).1
      (by norm_num)).2

/-! ### C8 -/

/-- Two-argument congruence for pixel lookups. -/
theorem pix_congr (f : Nat → Nat → Nat) {a b c d : Nat} (h1 : a = c)
    (h2 : b = d) : f a b = f c d := by rw [h1, h2]

@[simp] theorem Image.new_pix (w h x y : Nat) :
    (Image.new w h).pix x y = 0 := rfl

@[simp] theorem Image.crop_pix (img : Image) (l t r b x y : Nat) :
    (img.crop l t r b).pix x y = img.pix (l + x) (t + y) := rfl

@[simp] theorem Image.crop_width (img : Image) (l t r b : Nat) :
    (img.crop l t r b).width = r - l := rfl

@[simp] theorem Image.crop_height (img : Image) (l t r b : Nat) :
    (img.crop l t r b).height = b - t := rfl

@[simp] theorem Image.flipLR_pix (img : Image) (x y : Nat) :
    img.flipLR.pix x y = img.pix (img.width - 1 - x) y := rfl

@[simp] theorem Image.flipLR_width (img : Image) :
    img.flipLR.width = img.width := rfl

@[simp] theorem Image.flipLR_height (img : Image) :
    img.flipLR.height = img.height := rfl

@[simp] theorem Image.flipTB_pix (img : Image) (x y : Nat) :
    img.flipTB.pix x y = img.pix x (img.height - 1 - y) := rfl

@[simp] theorem Image.flipTB_width (img : Image) :
    img.flipTB.width = img.width := rfl

@[simp] theorem Image.flipTB_height (img : Image) :
    img.flipTB.height = img.height := rfl

@[simp] theorem Image.paste_pix (base piece : Image) (px py x y : Nat) :
    (base.paste piece px py).pix x y =
      if px ≤ x ∧ x < px + piece.width ∧ py ≤ y ∧ y < py + piece.height then
        piece.pix (x - px) (y - py)
      else base.pix x y := rfl

@[simp] theorem Image.paste_width (base piece : Image) (px py : Nat) :
    (base.paste piece px py).width = base.width := rfl

@[simp] theorem Image.paste_height (base piece : Image) (px py : Nat) :
    (base.paste piece px py).height = base.height := rfl

/-- `left_to_right`: same dimensions, the left `⌈w/2⌉` columns unchanged,
the remaining columns the mirror image of the left half. -/
theorem mirror_ltr_spec (img : Image) :
    (mirror_left_to_right img).width = img.width
  ∧ (mirror_left_to_right img).height = img.height
  ∧ (∀ x y, y < img.height → x < (img.width + 1) / 2 →
      (mirror_left_to_right img).pix x y = img.pix x y)
  ∧ (∀ x y, y < img.height → (img.width + 1) / 2 ≤ x → x < img.width →
      (mirror_left_to_right img).pix x y = img.pix (img.width - 1 - x) y) := by
  refine ⟨?_, ?_, ?_, ?_⟩
  · simp only [mirror_left_to_right]
    split_ifs <;> rfl
  · simp only [mirror_left_to_right]
    split_ifs <;> rfl
  · intro x y hy hx
    simp only [mirror_left_to_right]
    split_ifs <;>
      (simp only [Image.paste_pix, Image.crop_pix, Image.flipLR_pix, Image.new_pix,
        Image.crop_width, Image.crop_height, Image.flipLR_width, Image.flipLR_height,
        Image.paste_width, Image.paste_height]
       split_ifs <;>
         first
         | rfl
         | (exfalso; omega)
         | (refine pix_congr img.pix ?_ ?_ <;> omega))
  · intro x y hy hx1 hx2
    simp only [mirror_left_to_right]
    split_ifs <;>
      (simp only [Image.paste_pix, Image.crop_pix, Image.flipLR_pix, Image.new_pix,
        Image.crop_width, Image.crop_height, Image.flipLR_width, Image.flipLR_height,
        Image.paste_width, Image.paste_height]
       split_ifs <;>
         first
         | rfl
         | (exfalso; omega)
         | (refine pix_congr img.pix ?_ ?_ <;> omega))

/-- `right_to_left`: same dimensions, the right `⌈w/2⌉` columns unchanged,
the remaining columns the mirror image of the right half. -/
theorem mirror_rtl_spec (img : Image) :
    (mirror_right_to_left img).width = img.width
  ∧ (mirror_right_to_left img).height = img.height
  ∧ (∀ x y, y < img.height → img.width - (img.width + 1) / 2 ≤ x →
      x < img.width →
      (mirror_right_to_left img).pix x y = img.pix x y)
  ∧ (∀ x y, y < img.height → x < img.width - (img.width + 1) / 2 →
      (mirror_right_to_left img).pix x y = img.pix (img.width - 1 - x) y) := by
  refine ⟨?_, ?_, ?_, ?_⟩
  · simp only [mirror_right_to_left]
    split_ifs <;> rfl
  · simp only [mirror_right_to_left]
    split_ifs <;> rfl
  · intro x y hy hx1 hx2
    simp only [mirror_right_to_left]
    split_ifs <;>
      (simp only [Image.paste_pix, Image.crop_pix, Image.flipLR_pix, Image.new_pix,
        Image.crop_width, Image.crop_height, Image.flipLR_width, Image.flipLR_height,
        Image.paste_width, Image.paste_height]
       split_ifs <;>
         first
         | rfl
         | (exfalso; omega)
         | (refine pix_congr img.pix ?_ ?_ <;> omega))
  · intro x y hy hx
    simp only [mirror_right_to_left]
    split_ifs <;>
      (simp only [Image.paste_pix, Image.crop_pix, Image.flipLR_pix, Image.new_pix,
        Image.crop_width, Image.crop_height, Image.flipLR_width, Image.flipLR_height,
        Image.paste_width, Image.paste_height]
       split_ifs <;>
         first
         | rfl
         | (exfalso; omega)
         | (refine pix_congr img.pix ?_ ?_ <;> omega))

/-- `top_to_bottom`: same dimensions, the top `⌈h/2⌉` rows unchanged, the
remaining rows the mirror image of the top half. -/
theorem mirror_ttb_spec (img : Image) :
    (mirror_top_to_bottom img).width = img.width
  ∧ (mirror_top_to_bottom img).height = img.height
  ∧ (∀ x y, x < img.width → y < (img.height + 1) / 2 →
      (mirror_top_to_bottom img).pix x y = img.pix x y)
  ∧ (∀ x y, x < img.width → (img.height + 1) / 2 ≤ y → y < img.height →
      (mirror_top_to_bottom img).pix x y = img.pix x (img.height - 1 - y)) := by
  refine ⟨?_, ?_, ?_, ?_⟩
  · simp only [mirror_top_to_bottom]
    split_ifs <;> rfl
  · simp only [mirror_top_to_bottom]
    split_ifs <;> rfl
  · intro x y hx hy
    simp only [mirror_top_to_bottom]
    split_ifs <;>
      (simp only [Image.paste_pix, Image.crop_pix, Image.flipTB_pix, Image.new_pix,
        Image.crop_width, Image.crop_height, Image.flipTB_width, Image.flipTB_height,
        Image.paste_width, Image.paste_height]
       split_ifs <;>
         first
         | rfl
         | (exfalso; omega)
         | (refine pix_congr img.pix ?_ ?_ <;> omega))
  · intro x y hx hy1 hy2
    simp only [mirror_top_to_bottom]
    split_ifs <;>
      (simp only [Image.paste_pix, Image.crop_pix, Image.flipTB_pix, Image.new_pix,
        Image.crop_width, Image.crop_height, Image.flipTB_width, Image.flipTB_height,
        Image.paste_width, Image.paste_height]
       split_ifs <;>
         first
         | rfl
         | (exfalso; omega)
         | (refine pix_congr img.pix ?_ ?_ <;> omega))

/-- `bottom_to_top`: same dimensions, the bottom `⌈h/2⌉` rows unchanged,
the remaining rows the mirror image of the bottom half. -/
theorem mirror_btt_spec (img : Image) :
    (mirror_bottom_to_top img).width = img.width
  ∧ (mirror_bottom_to_top img).height = img.height
  ∧ (∀ x y, x < img.width → img.height - (img.height + 1) / 2 ≤ y →
      y < img.height →
      (mirror_bottom_to_top img).pix x y = img.pix x y)
  ∧ (∀ x y, x < img.width → y < img.height - (img.height + 1) / 2 →
      (mirror_bottom_to_top img).pix x y = img.pix x (img.height - 1 - y)) := by
  refine ⟨?_, ?_, ?_, ?_⟩
  · simp only [mirror_bottom_to_top]
    split_ifs <;> rfl
  · simp only [mirror_bottom_to_top]
    split_ifs <;> rfl
  · intro x y hx hy1 hy2
    simp only [mirror_bottom_to_top]
    split_ifs <;>
      (simp only [Image.paste_pix, Image.crop_pix, Image.flipTB_pix, Image.new_pix,
        Image.crop_width, Image.crop_height, Image.flipTB_width, Image.flipTB_height,
        Image.paste_width, Image.paste_height]
       split_ifs <;>
         first
         | rfl
         | (exfalso; omega)
         | (refine pix_congr img.pix ?_ ?_ <;> omega))
  · intro x y hx hy
    simp only [mirror_bottom_to_top]
    split_ifs <;>
      (simp only [Image.paste_pix, Image.crop_pix, Image.flipTB_pix, Image.new_pix,
        Image.crop_width, Image.crop_height, Image.flipTB_width, Image.flipTB_height,
        Image.paste_width, Image.paste_height]
       split_ifs <;>
         first
         | rfl
         | (exfalso; omega)
         | (refine pix_congr img.pix ?_ ?_ <;> omega))

/-- C8: for each of the four recognized modes `_apply_mirror` produces an
image of identical dimensions whose source half — the `⌈dim/2⌉`
rows/columns named first by the mode — is unchanged, and whose remaining
`dim - ⌈dim/2⌉` rows/columns are the pixel-exact mirror reflection of the
source half (the pixel at offset `i` equals the source pixel at
`dim - 1 - i`), for even and odd dimensions alike. -/
theorem c8_apply_mirror_modes (img : Image) :
    ((apply_mirror img "left_to_right").width = img.width
     ∧ (apply_mirror img "left_to_right").height = img.height
     ∧ (∀ x y, y < img.height → x < (img.width + 1) / 2 →
         (apply_mirror img "left_to_right").pix x y = img.pix x y)
     ∧ (∀ x y, y < img.height → (img.width + 1) / 2 ≤ x → x < img.width →
         (apply_mirror img "left_to_right").pix x y =
           img.pix (img.width - 1 - x) y))
  ∧ ((apply_mirror img "right_to_left").width = img.width
     ∧ (apply_mirror img "right_to_left").height = img.height
     ∧ (∀ x y, y < img.height → img.width - (img.width + 1) / 2 ≤ x →
         x < img.width →
         (apply_mirror img "right_to_left").pix x y = img.pix x y)
     ∧ (∀ x y, y < img.height → x < img.width - (img.width + 1) / 2 →
         (apply_mirror img "right_to_left").pix x y =
           img.pix (img.width - 1 - x) y))
  ∧ ((apply_mirror img "top_to_bottom").width = img.width
     ∧ (apply_mirror img "top_to_bottom").height = img.height
     ∧ (∀ x y, x < img.width → y < (img.height + 1) / 2 →
         (apply_mirror img "top_to_bottom").pix x y = img.pix x y)
     ∧ (∀ x y, x < img.width → (img.height + 1) / 2 ≤ y → y < img.height →
         (apply_mirror img "top_to_bottom").pix x y =
           img.pix x (img.height - 1 - y)))
  ∧ ((apply_mirror img "bottom_to_top").width = img.width
     ∧ (apply_mirror img "bottom_to_top").height = img.height
     ∧ (∀ x y, x < img.width → img.height - (img.height + 1) / 2 ≤ y →
         y < img.height →
         (apply_mirror img "bottom_to_top").pix x y = img.pix x y)
     ∧ (∀ x y, x < img.width → y < img.height - (img.height + 1) / 2 →
         (apply_mirror img "bottom_to_top").pix x y =
           img.pix x (img.height - 1 - y))) :=
  ⟨mirror_ltr_spec img, mirror_rtl_spec img, mirror_ttb_spec img,
    mirror_btt_spec img⟩

/-- C8 witness: the four modes on the 3 by 2 sample image (odd width,
even height), checking an unchanged pixel and a mirrored pixel each. -/
theorem c8_witness :
    (apply_mirror sampleImage "left_to_right").width = sampleImage.width
  ∧ (apply_mirror sampleImage "left_to_right").pix 1 1 = sampleImage.pix 1 1
  ∧ (apply_mirror sampleImage "left_to_right").pix 2 1 = sampleImage.pix 0 1
  ∧ (apply_mirror sampleImage "right_to_left").pix 0 0 = sampleImage.pix 2 0
  ∧ (apply_mirror sampleImage "top_to_bottom").pix 2 0 = sampleImage.pix 2 0
  ∧ (apply_mirror sampleImage "top_to_bottom").pix 2 1 = sampleImage.pix 2 0
  ∧ (apply_mirror sampleImage "bottom_to_top").pix 1 0 = sampleImage.pix 1 1
  := by
  refine ⟨(c8_apply_mirror_modes sampleImage).1.1, ?_, ?_, ?_, ?_, ?_, ?_⟩
  · exact (c8_apply_mirror_modes sampleImage).1.2.2.1 1 1 (by decide)
      (by decide)
  · have h := (c8_apply_mirror_modes sampleImage).1.2.2.2 2 1 (by decide)
      (by decide) (by decide)
    simpa using h
  · have h := (c8_apply_mirror_modes sampleImage).2.1.2.2.2 0 0 (by decide)
      (by decide)
    simpa using h
  · exact (c8_apply_mirror_modes sampleImage).2.2.1.2.2.1 2 0 (by decide)
      (by decide)
  · have h := (c8_apply_mirror_modes sampleImage).2.2.1.2.2.2 2 1 (by decide)
      (by decide) (by decide)
    simpa using h
  · have h := (c8_apply_mirror_modes sampleImage).2.2.2.2.2.2 1 0 (by decide)
      (by decide)
    simpa using h

end PicMirror
